import Mathlib

/-!
Verification of the mt5_trader collector core against its specification.

The Python source is shallowly embedded: prices and timestamps (Python
floats and timezone-aware datetimes) are modelled as exact rationals
(seconds for times), Python `int(x)` as truncation toward zero,
Python `round(x, n)` as round-half-to-even at `n` decimal digits,
dictionaries keyed by ticket or session id as association lists, and the
session.json files written by the manager as an association list from
session id to the serialized record.  `datetime.strftime("%Y%m%d_%H%M%S")`
is an injective encoding of the second-resolution timestamp, modelled by
`Int.floor` of the rational timestamp; `isoformat`/`fromisoformat` are
mutually inverse on aware datetimes and are modelled as the identity on
the rational timestamp.
-/

namespace MT5

/-- Python `round` with `ndigits` uses round-half-to-even on the scaled value. -/
def roundHalfEven (q : ℚ) : ℤ :=
  let f := ⌊q⌋
  if q - f < 1/2 then f
  else if (1:ℚ)/2 < q - f then f + 1
  else if f % 2 = 0 then f else f + 1

/-- Model of Python `round(q, ndigits)` on an exact rational. -/
def pyRound (ndigits : ℕ) (q : ℚ) : ℚ :=
  (roundHalfEven (q * 10 ^ ndigits) : ℚ) / 10 ^ ndigits

/-- Model of Python `int(q)`: truncation toward zero. -/
def pyTrunc (q : ℚ) : ℤ := if 0 ≤ q then ⌊q⌋ else -⌊-q⌋

/-- Trading action enum from models/market_data.py. -/
inductive Action
  | BUY
  | SELL
  | STOP_LOSS
  | HOLD
deriving DecidableEq, Repr

/-- String value of each Action member (`Action(str, Enum)`). -/
def Action.value : Action → String
  | .BUY => "BUY"
  | .SELL => "SELL"
  | .STOP_LOSS => "STOP_LOSS"
  | .HOLD => "HOLD"

/-- Model of the `Action(value)` enum constructor; `none` models the
`ValueError` raised on an unknown value. -/
def Action.ofValue : String → Option Action
  | "BUY" => some .BUY
  | "SELL" => some .SELL
  | "STOP_LOSS" => some .STOP_LOSS
  | "HOLD" => some .HOLD
  | _ => none

/-- Session status enum from models/market_data.py. -/
inductive SessionStatus
  | ACTIVE
  | COMPLETED
deriving DecidableEq, Repr

/-- String value of each SessionStatus member. -/
def SessionStatus.value : SessionStatus → String
  | .ACTIVE => "active"
  | .COMPLETED => "completed"

/-- Model of the `SessionStatus(value)` enum constructor. -/
def SessionStatus.ofValue : String → Option SessionStatus
  | "active" => some .ACTIVE
  | "completed" => some .COMPLETED
  | _ => none

/-- PositionInfo from models/market_data.py (floats as exact rationals). -/
structure PositionInfo where
  ticket : ℕ
  symbol : String
  volume : ℚ
  price : ℚ
  profit : ℚ
  sl : Option ℚ
  tp : Option ℚ
  type : String
deriving DecidableEq, Repr

/-- PositionMonitor._detect_action from collector/position_monitor.py.
Snapshots (Python dicts ticket → PositionInfo) are association lists; the
set differences `current_tickets - previous_tickets` and
`previous_tickets - current_tickets` are filters, and `list(s)[0]` is the
head of the filtered list (unique whenever the difference is a singleton,
which is the only case the specification constrains). -/
def detectAction (previous current : List (ℕ × PositionInfo)) :
    Action × Option PositionInfo :=
  let newTickets := current.filter fun p => previous.all fun q => q.1 ≠ p.1
  match newTickets with
  | p :: _ => (.BUY, some p.2)
  | [] =>
    let closedTickets := previous.filter fun p => current.all fun q => q.1 ≠ p.1
    match closedTickets with
    | p :: _ =>
      if 0 ≤ p.2.profit then (.SELL, some p.2) else (.STOP_LOSS, some p.2)
    | [] => (.HOLD, none)

/-! ### ThoughtManager (collector/thought_input.py) -/

/-- One entry of the pending-action deque: the dict
`(action, timestamp, thought := None)` built in `add_pending_action`. -/
structure PendingAction where
  action : Action
  timestamp : ℚ
  thought : Option String
deriving DecidableEq, Repr

/-- ThoughtInput from models/market_data.py (timestamp always supplied). -/
structure ThoughtInput where
  thought : String
  action : Action
  timestamp : ℚ
deriving DecidableEq, Repr

/-- In-memory state of ThoughtManager: the pending-action deque and the
stored thoughts list (which `_save_thought` also mirrors to disk). -/
structure ThoughtState where
  pendingActions : List PendingAction
  thoughts : List ThoughtInput
deriving DecidableEq, Repr

/-- Appending to a Python `deque(maxlen := m)`: when the deque is full the
element at the opposite end is discarded. -/
def dequeAppend (maxlen : ℕ) (q : List PendingAction) (x : PendingAction) :
    List PendingAction :=
  if maxlen < (q ++ [x]).length then (q ++ [x]).drop ((q ++ [x]).length - maxlen)
  else q ++ [x]

/-- Capacity of the pending-action deque, hard-coded as
`deque(maxlen=10)` in ThoughtManager.__init__. -/
def pendingCapacity : ℕ := 10

/-- ThoughtManager.add_pending_action. -/
def addPendingAction (st : ThoughtState) (action : Action) (t : ℚ) :
    ThoughtState :=
  { st with pendingActions :=
      dequeAppend pendingCapacity st.pendingActions ⟨action, t, none⟩ }

/-- The first loop of ThoughtManager.submit_thought: walk the deque and set
the thought of the first entry whose action matches and whose thought is
still unset; later entries are untouched, and if no entry matches the deque
is unchanged. -/
def setFirstMatch (a : Action) (text : String) :
    List PendingAction → List PendingAction
  | [] => []
  | p :: ps =>
    if p.action = a ∧ p.thought = none then
      { p with thought := some text } :: ps
    else
      p :: setFirstMatch a text ps

/-- ThoughtManager.submit_thought: builds the ThoughtInput, updates the
first matching unresolved pending entry (if any), appends the thought to
the stored list, and returns the ThoughtInput.  There is no failure path:
the function succeeds whether or not a pending entry matched. -/
def submitThought (st : ThoughtState) (text : String) (a : Action) (t : ℚ) :
    ThoughtInput × ThoughtState :=
  let th : ThoughtInput := ⟨text, a, t⟩
  (th, { st with
           pendingActions := setFirstMatch a text st.pendingActions,
           thoughts := st.thoughts ++ [th] })

/-! ### HorizontalLinesReader (collector/horizontal_lines.py) -/

/-- One entry of the "lines" array of the exported JSON file. -/
structure RawLine where
  name : String
  price : ℚ
  color : String
deriving DecidableEq, Repr

/-- Decides whether `needle` is a leading segment of `hay`. -/
def startsWithSeq : List Char → List Char → Bool
  | _, [] => true
  | [], _ :: _ => false
  | c :: cs, n :: ns => c = n && startsWithSeq cs ns

/-- Decides whether `needle` occurs contiguously inside `hay`
(Python `needle in hay` on strings). -/
def containsSeq (hay needle : List Char) : Bool :=
  match hay with
  | [] => startsWithSeq [] needle
  | _ :: t => startsWithSeq hay needle || containsSeq t needle

/-- The `"_copied_" in name` test of read_lines / read_raw. -/
def hasCopiedMarker (name : String) : Bool :=
  containsSeq name.data "_copied_".data

/-- The filtering loop shared by read_lines and read_raw: drop entries whose
name contains the mirror marker, then drop entries whose price rounded to 2
decimals was already seen. -/
def filterLines (seen : List ℚ) : List RawLine → List RawLine
  | [] => []
  | l :: ls =>
    if hasCopiedMarker l.name then filterLines seen ls
    else
      let key := pyRound 2 l.price
      if key ∈ seen then filterLines seen ls
      else l :: filterLines (key :: seen) ls

/-- HorizontalLinesReader.read_lines restricted to its filtering behavior
(on a successfully parsed "lines" array). -/
def readLinesFilter (input : List RawLine) : List RawLine :=
  filterLines [] input

/-! ### SessionManager data model (models/market_data.py) -/

/-- SessionEntry: time, action (always BUY at creation), price, thought. -/
structure SessionEntry where
  time : ℚ
  action : Action
  price : ℚ
  thought : String
deriving DecidableEq, Repr

/-- SessionExit: time, action (SELL or STOP_LOSS), price, thought. -/
structure SessionExit where
  time : ℚ
  action : Action
  price : ℚ
  thought : String
deriving DecidableEq, Repr

/-- HoldRecord: time and thought of one HOLD within a session. -/
structure HoldRecord where
  time : ℚ
  thought : String
deriving DecidableEq, Repr

/-- SessionResult: outcome metrics of a completed session. -/
structure SessionResult where
  duration_minutes : ℤ
  profit : ℚ
  profit_pips : ℚ
deriving DecidableEq, Repr

/-- Default timeframe list of TradingSession. -/
def defaultTimeframes : List String := ["D1", "H4", "M15", "M5", "M1"]

/-- TradingSession aggregate.  The session id, a second-resolution
timestamp string in the source, is modelled by the integer second tick. -/
structure TradingSession where
  session_id : ℤ
  symbol : String
  status : SessionStatus
  entry : Option SessionEntry
  exit : Option SessionExit
  holds : List HoldRecord
  result : Option SessionResult
  snapshot_count : ℕ
  timeframes : List String
deriving DecidableEq, Repr

/-! ### Serialized form of session.json (SessionManager._save_session) -/

/-- Serialized entry or exit block: the action is stored as its string
value, the ISO-8601 time as the timestamp it encodes. -/
structure PointData where
  time : ℚ
  action : String
  price : ℚ
  thought : String
deriving DecidableEq, Repr

/-- Serialized hold record. -/
structure HoldData where
  time : ℚ
  thought : String
deriving DecidableEq, Repr

/-- Serialized result block. -/
structure ResultData where
  duration_minutes : ℤ
  profit : ℚ
  profit_pips : ℚ
deriving DecidableEq, Repr

/-- The session.json dictionary written by SessionManager._save_session. -/
structure SessionData where
  session_id : ℤ
  symbol : String
  status : String
  entry : Option PointData
  exit : Option PointData
  holds : List HoldData
  result : Option ResultData
  snapshot_count : ℕ
  timeframes : List String
deriving DecidableEq, Repr

/-- The dictionary built by SessionManager._save_session from a session. -/
def sessionToData (s : TradingSession) : SessionData where
  session_id := s.session_id
  symbol := s.symbol
  status := s.status.value
  entry := s.entry.map fun e => ⟨e.time, e.action.value, e.price, e.thought⟩
  exit := s.exit.map fun x => ⟨x.time, x.action.value, x.price, x.thought⟩
  holds := s.holds.map fun h => ⟨h.time, h.thought⟩
  result := s.result.map fun r => ⟨r.duration_minutes, r.profit, r.profit_pips⟩
  snapshot_count := s.snapshot_count
  timeframes := s.timeframes

/-- Decoding of an optional serialized entry block; `none` result models a
`ValueError` from `Action(value)` on an unknown action string. -/
def decodeEntry : Option PointData → Option (Option SessionEntry)
  | none => some none
  | some d => (Action.ofValue d.action).map fun a =>
      some ⟨d.time, a, d.price, d.thought⟩

/-- Decoding of an optional serialized exit block. -/
def decodeExit : Option PointData → Option (Option SessionExit)
  | none => some none
  | some d => (Action.ofValue d.action).map fun a =>
      some ⟨d.time, a, d.price, d.thought⟩

/-- SessionManager._dict_to_session.  The overall Option models the
exception raised when an enum value in the dictionary is invalid. -/
def dataToSession (d : SessionData) : Option TradingSession :=
  (SessionStatus.ofValue d.status).bind fun st =>
    (decodeEntry d.entry).bind fun e =>
      (decodeExit d.exit).map fun x =>
        { session_id := d.session_id
          symbol := d.symbol
          status := st
          entry := e
          exit := x
          holds := d.holds.map fun h => ⟨h.time, h.thought⟩
          result := d.result.map fun r =>
            ⟨r.duration_minutes, r.profit, r.profit_pips⟩
          snapshot_count := d.snapshot_count
          timeframes := d.timeframes }

/-! ### SessionManager state machine (collector/session_manager.py) -/

/-- The persisted session store: writing session.json into the directory
`session_id` overwrites any previous file there. -/
def storePut (k : ℤ) (v : SessionData) (st : List (ℤ × SessionData)) :
    List (ℤ × SessionData) :=
  (k, v) :: st.filter fun p => p.1 ≠ k

/-- Reading session.json for a given session id. -/
def storeGet (k : ℤ) (st : List (ℤ × SessionData)) : Option SessionData :=
  (st.find? fun p => p.1 = k).map fun p => p.2

/-- SessionManager state: the single active-session slot (which also
stands for `_active_session_dir`, always the active session id) and the
persisted store of session.json files. -/
structure Manager where
  symbol : String
  active : Option TradingSession
  store : List (ℤ × SessionData)
deriving DecidableEq, Repr

/-- A freshly constructed SessionManager. -/
def initManager (symbol : String) : Manager :=
  { symbol := symbol, active := none, store := [] }

/-- SessionManager._save_session: persist the active session (if any)
under its id. -/
def saveActive (m : Manager) : Manager :=
  match m.active with
  | none => m
  | some s => { m with store := storePut s.session_id (sessionToData s) m.store }

/-- The system-generated rationale used when a new start force-completes
the previous active session. -/
def autoCloseThought : String := "Session auto-closed due to new session start"

/-- The in-place mutation of the active session performed by
SessionManager.end_session: write the exit block, transition to COMPLETED,
bump the snapshot count, and (when an entry exists) compute the result
metrics from the entry. -/
def completeSession (s : TradingSession) (t : ℚ) (action : Action)
    (thought : String) (price : ℚ) : TradingSession :=
  let s := { s with
               exit := some ⟨t, action, price, thought⟩
               status := SessionStatus.COMPLETED
               snapshot_count := s.snapshot_count + 1 }
  match s.entry with
  | none => s
  | some e =>
    let profit := price - e.price
    let res : SessionResult :=
      ⟨pyTrunc ((t - e.time) / 60), pyRound 2 profit, pyRound 1 (profit * 10)⟩
    { s with result := some res }

/-- SessionManager.end_session at instant `t`.  Returns the completed
session (or `none` with the state unchanged when no session is active).
Snapshot files written by `_save_snapshot` are outside the session.json
store and are accounted for only through `snapshot_count`. -/
def endSession (m : Manager) (t : ℚ) (action : Action) (thought : String)
    (price : ℚ) : Option TradingSession × Manager :=
  match m.active with
  | none => (none, m)
  | some s =>
    let s := completeSession s t action thought price
    let m := saveActive { m with active := some s }
    (some s, { m with active := none })

/-- SessionManager.add_hold at instant `t`. -/
def addHold (m : Manager) (t : ℚ) (thought : String) : Bool × Manager :=
  match m.active with
  | none => (false, m)
  | some s =>
    let s := { s with
                 holds := s.holds ++ [⟨t, thought⟩]
                 snapshot_count := s.snapshot_count + 1 }
    (true, saveActive { m with active := some s })

/-- The TradingSession constructed by SessionManager.start_session: a new
ACTIVE session with a BUY entry, no holds, no exit, no result, one
snapshot, and the default timeframe set. -/
def freshSession (sid : ℤ) (symbol : String) (t : ℚ) (thought : String)
    (price : ℚ) : TradingSession where
  session_id := sid
  symbol := symbol
  status := SessionStatus.ACTIVE
  entry := some ⟨t, Action.BUY, price, thought⟩
  exit := none
  holds := []
  result := none
  snapshot_count := 1
  timeframes := defaultTimeframes

/-- SessionManager.start_session.  `tForceEnd` is the `datetime.now()`
observed inside the forced end_session call when a session is already
active (unused otherwise); `t` is the `datetime.now()` taken for the new
session, whose second tick `⌊t⌋` is the new session id. -/
def startSession (m : Manager) (tForceEnd t : ℚ) (thought : String)
    (price : ℚ) : ℤ × Manager :=
  let m :=
    match m.active with
    | some _ => (endSession m tForceEnd Action.SELL autoCloseThought price).2
    | none => m
  let sid : ℤ := ⌊t⌋
  (sid, saveActive { m with active := some (freshSession sid m.symbol t thought price) })

/-- SessionManager.get_session: read the stored session.json and decode. -/
def getSession (m : Manager) (sid : ℤ) : Option TradingSession :=
  (storeGet sid m.store).bind dataToSession

/-- One external call to a session verb, with the clock values it reads. -/
inductive Op
  | start (tForceEnd t : ℚ) (thought : String) (price : ℚ)
  | hold (t : ℚ) (thought : String)
  | endS (t : ℚ) (action : Action) (thought : String) (price : ℚ)

/-- State transition of one call. -/
def stepOp (m : Manager) : Op → Manager
  | .start tForceEnd t thought price => (startSession m tForceEnd t thought price).2
  | .hold t thought => (addHold m t thought).2
  | .endS t action thought price => (endSession m t action thought price).2

/-- States reachable from a fresh manager by a call sequence. -/
def runOps (m : Manager) : List Op → Manager
  | [] => m
  | op :: ops => runOps (stepOp m op) ops

/-! ### Helper lemmas -/

theorem actionValue_roundtrip (a : Action) : Action.ofValue a.value = some a := by
  cases a <;> rfl

theorem statusValue_roundtrip (st : SessionStatus) :
    SessionStatus.ofValue st.value = some st := by
  cases st <;> rfl

theorem holds_data_roundtrip (hs : List HoldRecord) :
    ((hs.map fun h => (⟨h.time, h.thought⟩ : HoldData)).map
        fun h => (⟨h.time, h.thought⟩ : HoldRecord)) = hs := by
  induction hs with
  | nil => rfl
  | cons h t ih => simp [ih]

theorem result_data_roundtrip (r : Option SessionResult) :
    ((r.map fun x => (⟨x.duration_minutes, x.profit, x.profit_pips⟩ : ResultData)).map
        fun x => (⟨x.duration_minutes, x.profit, x.profit_pips⟩ : SessionResult)) = r := by
  cases r <;> rfl

theorem dataToSession_sessionToData (s : TradingSession) :
    dataToSession (sessionToData s) = some s := by
  obtain ⟨sid, sym, st, e, x, hs, r, c, tf⟩ := s
  cases e <;> cases x <;>
    simp [dataToSession, sessionToData, decodeEntry, decodeExit,
      statusValue_roundtrip, actionValue_roundtrip] <;>
    exact ⟨List.map_id hs, by cases r <;> rfl⟩

theorem storeGet_put (k : ℤ) (v : SessionData) (st : List (ℤ × SessionData)) :
    storeGet k (storePut k v st) = some v := by
  simp [storeGet, storePut, List.find?]

theorem find?_key_filter_ne (k k' : ℤ) (st : List (ℤ × SessionData))
    (h : k' ≠ k) :
    (st.filter fun p => p.1 ≠ k).find? (fun p => p.1 = k') =
      st.find? fun p => p.1 = k' := by
  induction st with
  | nil => rfl
  | cons p rest ih =>
    by_cases hp : p.1 = k
    · rw [List.filter_cons_of_neg (by simpa using hp)]
      rw [List.find?_cons_of_neg _ (by simp [hp]; exact Ne.symm h)]
      exact ih
    · rw [List.filter_cons_of_pos (by simpa using hp)]
      by_cases hk' : p.1 = k'
      · rw [List.find?_cons_of_pos _ (by simpa using hk'),
          List.find?_cons_of_pos _ (by simpa using hk')]
      · rw [List.find?_cons_of_neg _ (by simpa using hk'),
          List.find?_cons_of_neg _ (by simpa using hk')]
        exact ih

theorem storeGet_put_ne (k k' : ℤ) (v : SessionData)
    (st : List (ℤ × SessionData)) (h : k' ≠ k) :
    storeGet k' (storePut k v st) = storeGet k' st := by
  unfold storeGet storePut
  rw [List.find?_cons_of_neg _ (by simpa using Ne.symm h)]
  rw [find?_key_filter_ne k k' st h]

/-! ### Claim C4 -/

/-- Claim C4: when no session is ACTIVE, end_session returns a failure
result (None) and leaves the manager state — including the persisted
store — completely unchanged. -/
theorem c4_end_session_rejected (m : Manager) (t : ℚ) (a : Action)
    (th : String) (pr : ℚ) (h : m.active = none) :
    endSession m t a th pr = (none, m) := by
  simp [endSession, h]

theorem c4_witness :
    (initManager "XAUUSDp").active = none ∧
      endSession (initManager "XAUUSDp") 0 Action.SELL "exit" 0 =
        (none, initManager "XAUUSDp") :=
  ⟨rfl, c4_end_session_rejected (initManager "XAUUSDp") 0 Action.SELL "exit" 0 rfl⟩

/-! ### Claim C7 -/

/-- Claim C7: with no newly added ticket and exactly one removed ticket,
detect classifies by the removed ticket's last-known profit taken from the
previous snapshot — STOP_LOSS when negative, SELL when nonnegative — and
returns the previous snapshot's record of that ticket as the detail. -/
theorem c7_detect_closed (prev curr : List (ℕ × PositionInfo)) (tk : ℕ)
    (pos : PositionInfo)
    (hnew : ∀ p ∈ curr, ∃ q ∈ prev, q.1 = p.1)
    (hclosed : prev.filter (fun p => curr.all fun q => q.1 ≠ p.1) = [(tk, pos)]) :
    (pos.profit < 0 → detectAction prev curr = (Action.STOP_LOSS, some pos)) ∧
      (0 ≤ pos.profit → detectAction prev curr = (Action.SELL, some pos)) := by
  have hnil : curr.filter (fun p => prev.all fun q => q.1 ≠ p.1) = [] := by
    rw [List.filter_eq_nil_iff]
    intro p hp
    obtain ⟨q, hq, hq1⟩ := hnew p hp
    simp only [List.all_eq_true, decide_eq_true_eq, not_forall]
    exact ⟨q, hq, by simp [hq1]⟩
  simp only [ne_eq, decide_not] at hnil hclosed
  constructor
  · intro hneg
    simp [detectAction, hnil, hclosed, not_le.mpr hneg]
  · intro hpos
    simp [detectAction, hnil, hclosed, hpos]

theorem c7_witness :
    detectAction [(1, ⟨1, "XAUUSDp", 1, 2850, -5, none, none, "BUY"⟩)] [] =
      (Action.STOP_LOSS, some ⟨1, "XAUUSDp", 1, 2850, -5, none, none, "BUY"⟩) :=
  (c7_detect_closed [(1, ⟨1, "XAUUSDp", 1, 2850, -5, none, none, "BUY"⟩)] []
    1 ⟨1, "XAUUSDp", 1, 2850, -5, none, none, "BUY"⟩
    (by intro p hp; simp at hp) rfl).1 (by norm_num)

/-! ### Claim C5 -/

/-- Claim C5: persisting a completed TradingSession with _save_session and
reloading it by its id through get_session / _dict_to_session yields a
session equal to the original — in particular equal in entry, holds, exit,
result, and snapshot_count. -/
theorem c5_roundtrip (m : Manager) (s : TradingSession)
    (_h : s.status = SessionStatus.COMPLETED) :
    getSession { m with store := storePut s.session_id (sessionToData s) m.store }
        s.session_id = some s := by
  unfold getSession
  rw [storeGet_put]
  exact dataToSession_sessionToData s

theorem c5_witness :
    getSession
        { initManager "XAUUSDp" with
            store := storePut 20250101
              (sessionToData
                ⟨20250101, "XAUUSDp", SessionStatus.COMPLETED,
                  some ⟨0, Action.BUY, 2850.5, "entry"⟩,
                  some ⟨2820, Action.SELL, 2855.2, "target"⟩,
                  [⟨60, "waiting"⟩], some ⟨47, 47/10, 47⟩, 3, defaultTimeframes⟩)
              (initManager "XAUUSDp").store } 20250101 =
      some
        ⟨20250101, "XAUUSDp", SessionStatus.COMPLETED,
          some ⟨0, Action.BUY, 2850.5, "entry"⟩,
          some ⟨2820, Action.SELL, 2855.2, "target"⟩,
          [⟨60, "waiting"⟩], some ⟨47, 47/10, 47⟩, 3, defaultTimeframes⟩ :=
  c5_roundtrip (initManager "XAUUSDp")
    ⟨20250101, "XAUUSDp", SessionStatus.COMPLETED,
      some ⟨0, Action.BUY, 2850.5, "entry"⟩,
      some ⟨2820, Action.SELL, 2855.2, "target"⟩,
      [⟨60, "waiting"⟩], some ⟨47, 47/10, 47⟩, 3, defaultTimeframes⟩ rfl

/-! ### Claim C1 -/

theorem setFirstMatch_no_match (a : Action) (text : String)
    (l : List PendingAction)
    (h : ∀ p ∈ l, ¬(p.action = a ∧ p.thought = none)) :
    setFirstMatch a text l = l := by
  induction l with
  | nil => rfl
  | cons p ps ih =>
    simp only [setFirstMatch]
    rw [if_neg (h p (by simp))]
    rw [ih fun q hq => h q (by simp [hq])]

theorem setFirstMatch_split (a : Action) (text : String)
    (l₁ : List PendingAction) (p : PendingAction) (l₂ : List PendingAction)
    (hp : p.action = a ∧ p.thought = none)
    (hbef : ∀ q ∈ l₁, ¬(q.action = a ∧ q.thought = none)) :
    setFirstMatch a text (l₁ ++ p :: l₂) =
      l₁ ++ { p with thought := some text } :: l₂ := by
  induction l₁ with
  | nil => simp only [List.nil_append, setFirstMatch, if_pos hp]
  | cons q qs ih =>
    simp only [List.cons_append, setFirstMatch]
    rw [if_neg (hbef q (by simp))]
    exact congrArg (q :: ·) (ih fun r hr => hbef r (by simp [hr]))

/-- Claim C1 (amended): submit builds the ThoughtInput and stores it; it
sets the rationale of the earliest queued entry whose action matches and
whose rationale is unset, leaving all other entries untouched; when no
such unresolved matching entry exists the queue is unchanged yet the call
still succeeds, storing and returning the thought — there is no NotFound
failure. -/
theorem c1_submit_updates_earliest (st : ThoughtState) (text : String)
    (a : Action) (t : ℚ) :
    (submitThought st text a t).1 = ⟨text, a, t⟩ ∧
    (submitThought st text a t).2.thoughts = st.thoughts ++ [⟨text, a, t⟩] ∧
    ((∀ p ∈ st.pendingActions, ¬(p.action = a ∧ p.thought = none)) →
       (submitThought st text a t).2.pendingActions = st.pendingActions) ∧
    (∀ l₁ p l₂, st.pendingActions = l₁ ++ p :: l₂ →
       p.action = a → p.thought = none →
       (∀ q ∈ l₁, ¬(q.action = a ∧ q.thought = none)) →
       (submitThought st text a t).2.pendingActions =
         l₁ ++ { p with thought := some text } :: l₂) := by
  refine ⟨rfl, rfl, ?_, ?_⟩
  · intro h
    simp [submitThought, setFirstMatch_no_match a text _ h]
  · intro l₁ p l₂ hsplit hpa hpt hbef
    simp [submitThought, hsplit, setFirstMatch_split a text l₁ p l₂ ⟨hpa, hpt⟩ hbef]

theorem c1_witness :
    (submitThought ⟨[⟨Action.BUY, 0, some "resolved"⟩, ⟨Action.BUY, 1, none⟩], []⟩
        "fresh reasoning" Action.BUY 2).2.pendingActions =
      [⟨Action.BUY, 0, some "resolved"⟩,
        ⟨Action.BUY, 1, some "fresh reasoning"⟩] := by
  have h := c1_submit_updates_earliest
    ⟨[⟨Action.BUY, 0, some "resolved"⟩, ⟨Action.BUY, 1, none⟩], []⟩
    "fresh reasoning" Action.BUY 2
  have h4 := h.2.2.2 [⟨Action.BUY, 0, some "resolved"⟩] ⟨Action.BUY, 1, none⟩ []
    rfl rfl rfl (by simp)
  simpa using h4

theorem c1_counterexample :
    (submitThought ⟨[], []⟩ "no pending entry" Action.BUY 0).1 =
        ⟨"no pending entry", Action.BUY, 0⟩ ∧
      (submitThought ⟨[], []⟩ "no pending entry" Action.BUY 0).2.pendingActions
          = [] ∧
      (submitThought ⟨[], []⟩ "no pending entry" Action.BUY 0).2.thoughts =
        [⟨"no pending entry", Action.BUY, 0⟩] :=
  ⟨rfl, rfl, rfl⟩

/-! ### Claim C8 -/

theorem dequeAppend_not_full (mlen : ℕ) (q : List PendingAction)
    (x : PendingAction) (h : q.length < mlen) :
    dequeAppend mlen q x = q ++ [x] := by
  unfold dequeAppend
  rw [if_neg (by simp; omega)]

theorem dequeAppend_at_cap (mlen : ℕ) (q : List PendingAction)
    (x : PendingAction) (h : q.length = mlen) (hne : q ≠ []) :
    dequeAppend mlen q x = q.tail ++ [x] := by
  unfold dequeAppend
  rw [if_pos (by simp [h])]
  have hd : (q ++ [x]).length - mlen = 1 := by simp [h]
  rw [hd]
  cases q with
  | nil => exact absurd rfl hne
  | cons a as => simp

/-- Claim C8 (amended): the pending-action queue is a bounded FIFO with
fixed capacity 10 (hard-coded, not configurable); every enqueue succeeds,
evicting the oldest entry when the queue is full; a subsequent submit whose
action matches no remaining unresolved entry (for instance because the
matching entry was evicted) succeeds, returning the stored thought and
leaving every queue entry unchanged — it does not fail with NotFound. -/
theorem c8_bounded_queue (st : ThoughtState) (a : Action) (t : ℚ)
    (hlen : st.pendingActions.length ≤ pendingCapacity) :
    (addPendingAction st a t).pendingActions.length ≤ pendingCapacity ∧
    (st.pendingActions.length < pendingCapacity →
       (addPendingAction st a t).pendingActions =
         st.pendingActions ++ [⟨a, t, none⟩]) ∧
    (st.pendingActions.length = pendingCapacity →
       (addPendingAction st a t).pendingActions =
         st.pendingActions.tail ++ [⟨a, t, none⟩]) ∧
    (∀ text a2 t2,
       (∀ p ∈ (addPendingAction st a t).pendingActions,
          ¬(p.action = a2 ∧ p.thought = none)) →
       (submitThought (addPendingAction st a t) text a2 t2).1 =
           ⟨text, a2, t2⟩ ∧
         (submitThought (addPendingAction st a t) text a2 t2).2.pendingActions
           = (addPendingAction st a t).pendingActions) := by
  have hne10 : st.pendingActions.length = pendingCapacity →
      st.pendingActions ≠ [] := by
    intro he h0
    rw [h0] at he
    simp [pendingCapacity] at he
  refine ⟨?_, ?_, ?_, ?_⟩
  · rcases lt_or_eq_of_le hlen with hl | he
    · rw [show (addPendingAction st a t).pendingActions =
          dequeAppend pendingCapacity st.pendingActions ⟨a, t, none⟩ from rfl,
        dequeAppend_not_full _ _ _ hl]
      simp only [List.length_append, List.length_cons, List.length_nil]
      omega
    · rw [show (addPendingAction st a t).pendingActions =
          dequeAppend pendingCapacity st.pendingActions ⟨a, t, none⟩ from rfl,
        dequeAppend_at_cap _ _ _ he (hne10 he)]
      rw [List.length_append, List.length_tail, he]
      simp only [List.length_cons, List.length_nil]
      decide
  · intro hl
    exact dequeAppend_not_full _ _ _ hl
  · intro he
    exact dequeAppend_at_cap _ _ _ he (hne10 he)
  · intro text a2 t2 hnomatch
    exact ⟨rfl, by simp [submitThought,
      setFirstMatch_no_match a2 text _ hnomatch]⟩

theorem c8_witness :
    (addPendingAction ⟨[], []⟩ Action.BUY 0).pendingActions =
        [⟨Action.BUY, 0, none⟩] ∧
      (submitThought (addPendingAction ⟨[], []⟩ Action.BUY 0) "late"
          Action.SELL 1).2.pendingActions = [⟨Action.BUY, 0, none⟩] := by
  have h := c8_bounded_queue ⟨[], []⟩ Action.BUY 0 (by decide)
  have h2 := h.2.1 (by decide)
  refine ⟨by simpa using h2, ?_⟩
  have h4 := (h.2.2.2 "late" Action.SELL 1 (by decide)).2
  rw [h4]
  simpa using h2

theorem c8_counterexample :
    (List.foldl (fun st a => addPendingAction st a 0) ⟨[], []⟩
        (Action.SELL :: List.replicate 10 Action.BUY)).pendingActions =
        List.replicate 10 ⟨Action.BUY, 0, none⟩ ∧
      (submitThought
          (List.foldl (fun st a => addPendingAction st a 0) ⟨[], []⟩
            (Action.SELL :: List.replicate 10 Action.BUY))
          "late" Action.SELL 0).1 = ⟨"late", Action.SELL, 0⟩ ∧
      (submitThought
          (List.foldl (fun st a => addPendingAction st a 0) ⟨[], []⟩
            (Action.SELL :: List.replicate 10 Action.BUY))
          "late" Action.SELL 0).2.pendingActions =
        List.replicate 10 ⟨Action.BUY, 0, none⟩ := by
  refine ⟨by decide, rfl, by decide⟩

/-! ### Claim C9 -/

theorem filterLines_mem (seen : List ℚ) (ls : List RawLine) :
    ∀ l ∈ filterLines seen ls,
      hasCopiedMarker l.name = false ∧ pyRound 2 l.price ∉ seen := by
  induction ls generalizing seen with
  | nil => simp [filterLines]
  | cons x xs ih =>
    intro l hl
    simp only [filterLines] at hl
    by_cases hc : hasCopiedMarker x.name = true
    · rw [if_pos hc] at hl
      exact ih seen l hl
    · rw [if_neg hc] at hl
      by_cases hk : pyRound 2 x.price ∈ seen
      · rw [if_pos hk] at hl
        exact ih seen l hl
      · rw [if_neg hk] at hl
        rcases List.mem_cons.mp hl with rfl | hl'
        · exact ⟨by simpa using hc, hk⟩
        · have h := ih _ l hl'
          exact ⟨h.1, fun hmem => h.2 (List.mem_cons_of_mem _ hmem)⟩

theorem filterLines_pairwise (seen : List ℚ) (ls : List RawLine) :
    (filterLines seen ls).Pairwise
      fun a b => pyRound 2 a.price ≠ pyRound 2 b.price := by
  induction ls generalizing seen with
  | nil => simp [filterLines]
  | cons x xs ih =>
    simp only [filterLines]
    by_cases hc : hasCopiedMarker x.name = true
    · rw [if_pos hc]
      exact ih seen
    · rw [if_neg hc]
      by_cases hk : pyRound 2 x.price ∈ seen
      · rw [if_pos hk]
        exact ih seen
      · rw [if_neg hk]
        refine List.Pairwise.cons ?_ (ih _)
        intro b hb he
        exact (filterLines_mem _ _ b hb).2 (by rw [← he]; exact List.mem_cons_self _ _)

theorem filterLines_earliest (seen : List ℚ) (ls : List RawLine) :
    ∀ l ∈ filterLines seen ls, ∃ l₁ l₂, ls = l₁ ++ l :: l₂ ∧
      ∀ p ∈ l₁, hasCopiedMarker p.name = false →
        pyRound 2 p.price ≠ pyRound 2 l.price := by
  induction ls generalizing seen with
  | nil => simp [filterLines]
  | cons x xs ih =>
    intro l hl
    simp only [filterLines] at hl
    by_cases hc : hasCopiedMarker x.name = true
    · rw [if_pos hc] at hl
      obtain ⟨l₁, l₂, hxs, hprop⟩ := ih seen l hl
      refine ⟨x :: l₁, l₂, by rw [hxs, List.cons_append], ?_⟩
      intro p hp hpc
      rcases List.mem_cons.mp hp with rfl | hp'
      · exact absurd hpc (by simp [hc])
      · exact hprop p hp' hpc
    · rw [if_neg hc] at hl
      by_cases hk : pyRound 2 x.price ∈ seen
      · rw [if_pos hk] at hl
        obtain ⟨l₁, l₂, hxs, hprop⟩ := ih seen l hl
        have hnotin := (filterLines_mem seen xs l hl).2
        refine ⟨x :: l₁, l₂, by rw [hxs, List.cons_append], ?_⟩
        intro p hp hpc
        rcases List.mem_cons.mp hp with rfl | hp'
        · intro he
          exact hnotin (he ▸ hk)
        · exact hprop p hp' hpc
      · rw [if_neg hk] at hl
        rcases List.mem_cons.mp hl with rfl | hl'
        · exact ⟨[], xs, rfl, by simp⟩
        · obtain ⟨l₁, l₂, hxs, hprop⟩ := ih _ l hl'
          have hnotin := (filterLines_mem _ xs l hl').2
          refine ⟨x :: l₁, l₂, by rw [hxs, List.cons_append], ?_⟩
          intro p hp hpc
          rcases List.mem_cons.mp hp with rfl | hp'
          · intro he
            exact hnotin (by rw [← he]; exact List.mem_cons_self _ _)
          · exact hprop p hp' hpc

/-- Claim C9: the filtered annotation list contains no entry whose name
holds the protocol-internal mirror marker, no two returned entries share a
price once rounded to 2 decimal places, and each returned entry is the
earliest non-mirror input entry bearing its rounded price (no earlier
non-mirror entry in input order has the same rounded price). -/
theorem c9_lines_filtered (input : List RawLine) :
    (∀ l ∈ readLinesFilter input, hasCopiedMarker l.name = false) ∧
    (readLinesFilter input).Pairwise
      (fun a b => pyRound 2 a.price ≠ pyRound 2 b.price) ∧
    (∀ l ∈ readLinesFilter input, ∃ l₁ l₂, input = l₁ ++ l :: l₂ ∧
       ∀ p ∈ l₁, hasCopiedMarker p.name = false →
         pyRound 2 p.price ≠ pyRound 2 l.price) :=
  ⟨fun l hl => (filterLines_mem [] input l hl).1,
   filterLines_pairwise [] input,
   filterLines_earliest [] input⟩

theorem c9_witness :
    readLinesFilter
        [⟨"lvl_copied_1", 0, "#FF0000"⟩, ⟨"support", 0, "#00FF00"⟩,
          ⟨"dup", 0, "#0000FF"⟩] = [⟨"support", 0, "#00FF00"⟩] ∧
      hasCopiedMarker "support" = false := by
  have hout : readLinesFilter
      [⟨"lvl_copied_1", 0, "#FF0000"⟩, ⟨"support", 0, "#00FF00"⟩,
        ⟨"dup", 0, "#0000FF"⟩] = [⟨"support", 0, "#00FF00"⟩] := by
    simp only [readLinesFilter, filterLines]
    rw [if_pos (by decide), if_neg (by decide), if_neg (by simp),
      if_neg (by decide), if_pos (by simp)]
  refine ⟨hout, ?_⟩
  exact (c9_lines_filtered
      [⟨"lvl_copied_1", 0, "#FF0000"⟩, ⟨"support", 0, "#00FF00"⟩,
        ⟨"dup", 0, "#0000FF"⟩]).1 ⟨"support", 0, "#00FF00"⟩
    (by rw [hout]; exact List.mem_cons_self _ _)

/-! ### SessionManager invariants -/

theorem completeSession_session_id (s : TradingSession) (t : ℚ) (a : Action)
    (th : String) (pr : ℚ) :
    (completeSession s t a th pr).session_id = s.session_id := by
  cases h : s.entry <;> simp [completeSession, h]

theorem completeSession_status (s : TradingSession) (t : ℚ) (a : Action)
    (th : String) (pr : ℚ) :
    (completeSession s t a th pr).status = SessionStatus.COMPLETED := by
  cases h : s.entry <;> simp [completeSession, h]

theorem completeSession_holds (s : TradingSession) (t : ℚ) (a : Action)
    (th : String) (pr : ℚ) :
    (completeSession s t a th pr).holds = s.holds := by
  cases h : s.entry <;> simp [completeSession, h]

theorem completeSession_snapshot_count (s : TradingSession) (t : ℚ)
    (a : Action) (th : String) (pr : ℚ) :
    (completeSession s t a th pr).snapshot_count = s.snapshot_count + 1 := by
  cases h : s.entry <;> simp [completeSession, h]

theorem completeSession_exit (s : TradingSession) (t : ℚ) (a : Action)
    (th : String) (pr : ℚ) :
    (completeSession s t a th pr).exit = some ⟨t, a, pr, th⟩ := by
  cases h : s.entry <;> simp [completeSession, h]

theorem completeSession_entry (s : TradingSession) (t : ℚ) (a : Action)
    (th : String) (pr : ℚ) :
    (completeSession s t a th pr).entry = s.entry := by
  cases h : s.entry <;> simp [completeSession, h]

theorem mem_storePut {k₀ : ℤ} {v₀ : SessionData} {st : List (ℤ × SessionData)}
    {k : ℤ} {v : SessionData} (h : (k, v) ∈ storePut k₀ v₀ st) :
    (k = k₀ ∧ v = v₀) ∨ ((k, v) ∈ st ∧ k ≠ k₀) := by
  unfold storePut at h
  rcases List.mem_cons.mp h with h | h
  · left
    exact ⟨congrArg Prod.fst h, congrArg Prod.snd h⟩
  · right
    have h' := List.mem_filter.mp h
    exact ⟨h'.1, by simpa using h'.2⟩

theorem endSession_inactive (m : Manager) (t : ℚ) (a : Action) (th : String)
    (pr : ℚ) (hact : m.active = none) : endSession m t a th pr = (none, m) := by
  simp [endSession, hact]

theorem endSession_active_eq (m : Manager) (s : TradingSession) (t : ℚ)
    (a : Action) (th : String) (pr : ℚ) (hact : m.active = some s) :
    endSession m t a th pr =
      (some (completeSession s t a th pr),
       { symbol := m.symbol, active := none,
         store := storePut (completeSession s t a th pr).session_id
           (sessionToData (completeSession s t a th pr)) m.store }) := by
  simp [endSession, hact, saveActive]

theorem endSession_active_none (m : Manager) (s : TradingSession) (t : ℚ)
    (a : Action) (th : String) (pr : ℚ) (hact : m.active = some s) :
    (endSession m t a th pr).2.active = none := by
  rw [endSession_active_eq m s t a th pr hact]

theorem addHold_inactive (m : Manager) (t : ℚ) (th : String)
    (hact : m.active = none) : addHold m t th = (false, m) := by
  simp [addHold, hact]

theorem addHold_active_eq (m : Manager) (s : TradingSession) (t : ℚ)
    (th : String) (hact : m.active = some s) :
    addHold m t th =
      (true,
       { symbol := m.symbol,
         active := some { s with holds := s.holds ++ [⟨t, th⟩], snapshot_count := s.snapshot_count + 1 },
         store := storePut s.session_id (sessionToData { s with holds := s.holds ++ [⟨t, th⟩], snapshot_count := s.snapshot_count + 1 }) m.store }) := by
  simp [addHold, hact, saveActive]

theorem startSession_none_eq (m : Manager) (tFE t : ℚ) (th : String) (pr : ℚ)
    (hact : m.active = none) :
    startSession m tFE t th pr =
      (⌊t⌋,
       { symbol := m.symbol,
         active := some (freshSession ⌊t⌋ m.symbol t th pr),
         store := storePut ⌊t⌋
           (sessionToData (freshSession ⌊t⌋ m.symbol t th pr)) m.store }) := by
  simp [startSession, hact, saveActive, freshSession]

theorem startSession_active_eq (m : Manager) (s : TradingSession) (tFE t : ℚ)
    (th : String) (pr : ℚ) (hact : m.active = some s) :
    startSession m tFE t th pr =
      startSession (endSession m tFE Action.SELL autoCloseThought pr).2
        tFE t th pr := by
  have hn : (endSession m tFE Action.SELL autoCloseThought pr).2.active = none :=
    endSession_active_none m s tFE Action.SELL autoCloseThought pr hact
  simp only [startSession, hact, hn]

/-- The inductive invariant of the SessionManager: the slot session (when
present) is ACTIVE with no exit and snapshot_count 1 + holds; every stored
record with status "active" carries the slot session's id; no stored
record is "active" when the slot is empty; and every stored record obeys
the snapshot-count equation. -/
def ManagerInv (m : Manager) : Prop :=
  (∀ s, m.active = some s →
     s.status = SessionStatus.ACTIVE ∧ s.exit = none ∧
       s.snapshot_count = 1 + s.holds.length) ∧
  (∀ s k v, m.active = some s → (k, v) ∈ m.store → v.status = "active" →
     k = s.session_id) ∧
  (m.active = none → ∀ k v, (k, v) ∈ m.store → v.status ≠ "active") ∧
  (∀ k v, (k, v) ∈ m.store →
     v.snapshot_count = 1 + v.holds.length + (if v.exit.isSome then 1 else 0))

theorem initManager_inv (sym : String) : ManagerInv (initManager sym) :=
  ⟨by simp [initManager], by simp [initManager], by simp [initManager],
    by simp [initManager]⟩

theorem endSession_inv (m : Manager) (t : ℚ) (a : Action) (th : String)
    (pr : ℚ) (h : ManagerInv m) : ManagerInv (endSession m t a th pr).2 := by
  obtain ⟨hslot, hstoreAct, hnone, hcount⟩ := h
  cases hact : m.active with
  | none =>
    rw [endSession_inactive m t a th pr hact]
    exact ⟨hslot, hstoreAct, hnone, hcount⟩
  | some s =>
    rw [endSession_active_eq m s t a th pr hact]
    have hs := hslot s hact
    refine ⟨?_, ?_, ?_, ?_⟩
    · intro s' hs'
      exact absurd hs' (by simp)
    · intro s' k v hs'
      exact absurd hs' (by simp)
    · intro _ k v hmem
      rcases mem_storePut hmem with ⟨hk, hv⟩ | ⟨hmem', hk⟩
      · rw [hv]
        have hst : (sessionToData (completeSession s t a th pr)).status =
            "completed" := by
          rw [show (sessionToData (completeSession s t a th pr)).status =
              (completeSession s t a th pr).status.value from rfl,
            completeSession_status]
          rfl
        rw [hst]
        decide
      · intro hvact
        rw [completeSession_session_id] at hk
        exact hk (hstoreAct s k v hact hmem' hvact)
    · intro k v hmem
      rcases mem_storePut hmem with ⟨hk, hv⟩ | ⟨hmem', _⟩
      · rw [hv]
        have h1 : (sessionToData (completeSession s t a th pr)).snapshot_count =
            s.snapshot_count + 1 := by
          rw [show (sessionToData (completeSession s t a th pr)).snapshot_count =
              (completeSession s t a th pr).snapshot_count from rfl,
            completeSession_snapshot_count]
        have h2 : (sessionToData (completeSession s t a th pr)).holds.length =
            s.holds.length := by
          simp [sessionToData, completeSession_holds]
        have h3 : (sessionToData (completeSession s t a th pr)).exit.isSome =
            true := by
          simp [sessionToData, completeSession_exit]
        rw [h1, h2, h3, hs.2.2]
        simp
      · exact hcount k v hmem'

theorem addHold_inv (m : Manager) (t : ℚ) (th : String) (h : ManagerInv m) :
    ManagerInv (addHold m t th).2 := by
  obtain ⟨hslot, hstoreAct, hnone, hcount⟩ := h
  cases hact : m.active with
  | none =>
    rw [addHold_inactive m t th hact]
    exact ⟨hslot, hstoreAct, hnone, hcount⟩
  | some s =>
    rw [addHold_active_eq m s t th hact]
    have hs := hslot s hact
    refine ⟨?_, ?_, ?_, ?_⟩
    · intro s' hs'
      cases Option.some.inj hs'
      refine ⟨by simp [hs.1], by simp [hs.2.1], ?_⟩
      simp [hs.2.2]
      omega
    · intro s' k v hs' hmem hvact
      cases Option.some.inj hs'
      rcases mem_storePut hmem with ⟨hk, hv⟩ | ⟨hmem', hk⟩
      · simpa using hk
      · simpa using hstoreAct s k v hact hmem' hvact
    · intro h0
      exact absurd h0 (by simp)
    · intro k v hmem
      rcases mem_storePut hmem with ⟨hk, hv⟩ | ⟨hmem', _⟩
      · rw [hv]
        simp [sessionToData, hs.2.1, hs.2.2]
        omega
      · exact hcount k v hmem'

theorem startSession_inv_idle (m : Manager) (tFE t : ℚ) (th : String)
    (pr : ℚ) (hact : m.active = none) (h : ManagerInv m) :
    ManagerInv (startSession m tFE t th pr).2 := by
  obtain ⟨hslot, hstoreAct, hnone, hcount⟩ := h
  rw [startSession_none_eq m tFE t th pr hact]
  refine ⟨?_, ?_, ?_, ?_⟩
  · intro s' hs'
    cases Option.some.inj hs'
    refine ⟨rfl, rfl, rfl⟩
  · intro s' k v hs' hmem hvact
    cases Option.some.inj hs'
    rcases mem_storePut hmem with ⟨hk, hv⟩ | ⟨hmem', hk⟩
    · simpa [freshSession] using hk
    · exact absurd hvact (hnone hact k v hmem')
  · intro h0
    exact absurd h0 (by simp)
  · intro k v hmem
    rcases mem_storePut hmem with ⟨hk, hv⟩ | ⟨hmem', _⟩
    · rw [hv]
      simp [sessionToData, freshSession]
    · exact hcount k v hmem'

theorem startSession_inv (m : Manager) (tFE t : ℚ) (th : String) (pr : ℚ)
    (h : ManagerInv m) : ManagerInv (startSession m tFE t th pr).2 := by
  cases hact : m.active with
  | none => exact startSession_inv_idle m tFE t th pr hact h
  | some s =>
    rw [startSession_active_eq m s tFE t th pr hact]
    exact startSession_inv_idle _ tFE t th pr
      (endSession_active_none m s tFE Action.SELL autoCloseThought pr hact)
      (endSession_inv m tFE Action.SELL autoCloseThought pr h)

theorem stepOp_inv (m : Manager) (op : Op) (h : ManagerInv m) :
    ManagerInv (stepOp m op) := by
  cases op with
  | start tFE t th pr => exact startSession_inv m tFE t th pr h
  | hold t th => exact addHold_inv m t th h
  | endS t a th pr => exact endSession_inv m t a th pr h

theorem runOps_inv (m : Manager) (ops : List Op) (h : ManagerInv m) :
    ManagerInv (runOps m ops) := by
  induction ops generalizing m with
  | nil => exact h
  | cons op ops ih => exact ih (stepOp m op) (stepOp_inv m op h)

/-! ### Claim C2 -/

/-- Claim C2: in every reachable SessionManager state at most one session
has status ACTIVE — any two stored records with status "active" share one
session id, any stored "active" record names the session held in the
single ACTIVE slot, and the slot itself is ACTIVE — and a start_session
call made while a session is ACTIVE is not rejected: it behaves exactly as
a forced end_session with a synthetic SELL exit and the system-generated
rationale, followed by a start from the idle state, so the invariant is
preserved. -/
theorem c2_single_active :
    (∀ sym ops k₁ v₁ k₂ v₂,
       (k₁, v₁) ∈ (runOps (initManager sym) ops).store →
       (k₂, v₂) ∈ (runOps (initManager sym) ops).store →
       v₁.status = "active" → v₂.status = "active" → k₁ = k₂) ∧
    (∀ sym ops k v,
       (k, v) ∈ (runOps (initManager sym) ops).store → v.status = "active" →
       ∃ s, (runOps (initManager sym) ops).active = some s ∧
         s.session_id = k ∧ s.status = SessionStatus.ACTIVE) ∧
    (∀ m s tFE t th pr, m.active = some s →
       startSession m tFE t th pr =
         startSession (endSession m tFE Action.SELL autoCloseThought pr).2
           tFE t th pr ∧
       (endSession m tFE Action.SELL autoCloseThought pr).2.active = none ∧
       (endSession m tFE Action.SELL autoCloseThought pr).1 =
         some (completeSession s tFE Action.SELL autoCloseThought pr) ∧
       (completeSession s tFE Action.SELL autoCloseThought pr).status =
         SessionStatus.COMPLETED ∧
       (completeSession s tFE Action.SELL autoCloseThought pr).exit =
         some ⟨tFE, Action.SELL, pr, autoCloseThought⟩) := by
  refine ⟨?_, ?_, ?_⟩
  · intro sym ops k₁ v₁ k₂ v₂ h1 h2 ha1 ha2
    obtain ⟨hslot, hstoreAct, hnone, _⟩ :=
      runOps_inv (initManager sym) ops (initManager_inv sym)
    cases hma : (runOps (initManager sym) ops).active with
    | none => exact absurd ha1 (hnone hma k₁ v₁ h1)
    | some s =>
      rw [hstoreAct s k₁ v₁ hma h1 ha1, hstoreAct s k₂ v₂ hma h2 ha2]
  · intro sym ops k v hmem hact
    obtain ⟨hslot, hstoreAct, hnone, _⟩ :=
      runOps_inv (initManager sym) ops (initManager_inv sym)
    cases hma : (runOps (initManager sym) ops).active with
    | none => exact absurd hact (hnone hma k v hmem)
    | some s =>
      exact ⟨s, rfl, (hstoreAct s k v hma hmem hact).symm, (hslot s hma).1⟩
  · intro m s tFE t th pr hact
    refine ⟨startSession_active_eq m s tFE t th pr hact,
      endSession_active_none m s tFE Action.SELL autoCloseThought pr hact,
      ?_, completeSession_status s tFE Action.SELL autoCloseThought pr,
      completeSession_exit s tFE Action.SELL autoCloseThought pr⟩
    rw [endSession_active_eq m s tFE Action.SELL autoCloseThought pr hact]

theorem c2_witness :
    startSession
        { symbol := "XAUUSDp",
          active := some (freshSession 0 "XAUUSDp" 0 "entry" 2850),
          store := [] } 60 60 "next entry" 2900 =
        startSession
          (endSession
            { symbol := "XAUUSDp",
              active := some (freshSession 0 "XAUUSDp" 0 "entry" 2850),
              store := [] } 60 Action.SELL autoCloseThought 2900).2
          60 60 "next entry" 2900 ∧
      (endSession
          { symbol := "XAUUSDp",
            active := some (freshSession 0 "XAUUSDp" 0 "entry" 2850),
            store := [] } 60 Action.SELL autoCloseThought 2900).2.active =
        none := by
  have h := c2_single_active.2.2
    { symbol := "XAUUSDp",
      active := some (freshSession 0 "XAUUSDp" 0 "entry" 2850), store := [] }
    (freshSession 0 "XAUUSDp" 0 "entry" 2850) 60 60 "next entry" 2900 rfl
  exact ⟨h.1, h.2.1⟩

/-! ### Claim C3 -/

/-- Claim C3: every reachable TradingSession — the ACTIVE slot session and
every persisted record — satisfies snapshot_count = 1 (entry) + number of
holds + (1 if an exit is present, else 0); and the lifecycle start_session
→ add_hold → add_hold → end_session yields a completed session with
snapshot_count exactly 4. -/
theorem c3_snapshot_count :
    (∀ sym ops s, (runOps (initManager sym) ops).active = some s →
       s.snapshot_count =
         1 + s.holds.length + (if s.exit.isSome then 1 else 0)) ∧
    (∀ sym ops k v, (k, v) ∈ (runOps (initManager sym) ops).store →
       v.snapshot_count =
         1 + v.holds.length + (if v.exit.isSome then 1 else 0)) ∧
    (∀ sym tFE t0 th0 pr0 t1 th1 t2 th2 t3 a th3 pr3,
       ((endSession
           (addHold
             (addHold (startSession (initManager sym) tFE t0 th0 pr0).2
               t1 th1).2
             t2 th2).2
           t3 a th3 pr3).1.map TradingSession.snapshot_count) = some 4) := by
  refine ⟨?_, ?_, ?_⟩
  · intro sym ops s hma
    have hs := (runOps_inv (initManager sym) ops (initManager_inv sym)).1 s hma
    rw [hs.2.1, hs.2.2]
    simp
  · intro sym ops k v hmem
    exact (runOps_inv (initManager sym) ops (initManager_inv sym)).2.2.2 k v hmem
  · intro sym tFE t0 th0 pr0 t1 th1 t2 th2 t3 a th3 pr3
    rw [startSession_none_eq (initManager sym) tFE t0 th0 pr0 rfl]
    rw [addHold_active_eq _ _ t1 th1 rfl]
    rw [addHold_active_eq _ _ t2 th2 rfl]
    rw [endSession_active_eq _ _ t3 a th3 pr3 rfl]
    simp [completeSession_snapshot_count, freshSession]

theorem c3_witness :
    (freshSession 0 "XAUUSDp" 0 "entry" 2850).snapshot_count =
        1 + (freshSession 0 "XAUUSDp" 0 "entry" 2850).holds.length +
          (if (freshSession 0 "XAUUSDp" 0 "entry" 2850).exit.isSome then 1
           else 0) ∧
      ((endSession
          (addHold
            (addHold (startSession (initManager "XAUUSDp") 0 0 "entry" 2850).2
              60 "hold one").2
            120 "hold two").2
          180 Action.SELL "target" 2855).1.map TradingSession.snapshot_count) =
        some 4 := by
  constructor
  · have hact : (runOps (initManager "XAUUSDp") [Op.start 0 0 "entry" 2850]).active
        = some (freshSession 0 "XAUUSDp" 0 "entry" 2850) := by
      show (stepOp (initManager "XAUUSDp") (Op.start 0 0 "entry" 2850)).active = _
      rw [show stepOp (initManager "XAUUSDp") (Op.start 0 0 "entry" 2850) =
          (startSession (initManager "XAUUSDp") 0 0 "entry" 2850).2 from rfl]
      rw [startSession_none_eq (initManager "XAUUSDp") 0 0 "entry" 2850 rfl]
      simp [initManager, Int.floor_zero]
    exact c3_snapshot_count.1 "XAUUSDp" [Op.start 0 0 "entry" 2850] _ hact
  · exact c3_snapshot_count.2.2 "XAUUSDp" 0 0 "entry" 2850 60 "hold one" 120
      "hold two" 180 Action.SELL "target" 2855

/-! ### Claim C6 -/

theorem pyTrunc_eq_floor (q : ℚ) (h : 0 ≤ q) : pyTrunc q = ⌊q⌋ := by
  simp [pyTrunc, h]

/-- Claim C6 (amended): for an ACTIVE session with entry `e` ended at an
instant `t` at or after the entry time, end_session stores
duration_minutes = the floor of the elapsed whole minutes,
profit = (exit_price − entry_price) rounded half-to-even to 2 decimal
places, and profit_pips = 10 × (exit_price − entry_price) rounded to 1
decimal place (the pip scale is the fixed constant 10); in the spec
scenario — entry 2850.50, SELL exit 2855.20 forty-seven minutes later —
this yields duration 47, profit 4.70, pips 47.0. -/
theorem c6_result_metrics (m : Manager) (s : TradingSession)
    (e : SessionEntry) (t : ℚ) (a : Action) (th : String) (pr : ℚ)
    (hact : m.active = some s) (hent : s.entry = some e) (hle : e.time ≤ t) :
    (endSession m t a th pr).1 = some (completeSession s t a th pr) ∧
    (completeSession s t a th pr).result =
      some ⟨⌊(t - e.time) / 60⌋, pyRound 2 (pr - e.price),
        pyRound 1 ((pr - e.price) * 10)⟩ := by
  constructor
  · rw [endSession_active_eq m s t a th pr hact]
  · have h60 : (0:ℚ) ≤ (t - e.time) / 60 :=
      div_nonneg (sub_nonneg.mpr hle) (by norm_num)
    simp [completeSession, hent, pyTrunc_eq_floor _ h60]

theorem c6_witness :
    ((endSession
        { symbol := "XAUUSDp",
          active := some (freshSession 0 "XAUUSDp" 0 "oversold" (2850.5 : ℚ)),
          store := [] }
        2820 Action.SELL "target hit" (2855.2 : ℚ)).1.bind
      TradingSession.result) = some ⟨47, 47/10, 47⟩ := by
  have h := c6_result_metrics
    { symbol := "XAUUSDp",
      active := some (freshSession 0 "XAUUSDp" 0 "oversold" (2850.5 : ℚ)),
      store := [] }
    (freshSession 0 "XAUUSDp" 0 "oversold" (2850.5 : ℚ))
    ⟨0, Action.BUY, (2850.5 : ℚ), "oversold"⟩
    2820 Action.SELL "target hit" (2855.2 : ℚ) rfl rfl (by norm_num)
  rw [h.1]
  show (completeSession (freshSession 0 "XAUUSDp" 0 "oversold" (2850.5 : ℚ))
      2820 Action.SELL "target hit" (2855.2 : ℚ)).result = some ⟨47, 47/10, 47⟩
  rw [h.2]
  norm_num [pyRound, roundHalfEven]

theorem c6_counterexample :
    (((endSession (startSession (initManager "XAUUSDp") 0 0 "entry" 0).2
          2820 Action.SELL "exit" (1/1000 : ℚ)).1.bind
        TradingSession.result).map SessionResult.profit) = some 0 ∧
      (1/1000 : ℚ) - 0 ≠ 0 := by
  constructor
  · rw [startSession_none_eq _ _ _ _ _ rfl]
    rw [endSession_active_eq _ _ _ _ _ _ rfl]
    show ((completeSession (freshSession ⌊(0:ℚ)⌋ "XAUUSDp" 0 "entry" 0)
        2820 Action.SELL "exit" (1/1000 : ℚ)).result.map SessionResult.profit)
      = some 0
    norm_num [completeSession, freshSession, pyRound, roundHalfEven, pyTrunc]
  · norm_num

/-! ### Claim C10 -/

/-- Claim C10 (amended): when start_session runs while a session with
entry `e` is ACTIVE (and the new second tick differs from the prior id, so
the stored record is not overwritten), the prior session is persisted
force-completed with a synthetic SELL exit whose price is the NEW
session's entry price, and its result.profit is the new entry price minus
the old entry price rounded half-to-even to 2 decimal places — not a price
observed at the time the old position actually closed. -/
theorem c10_forced_exit_uses_new_price (m : Manager) (s : TradingSession)
    (e : SessionEntry) (tFE t : ℚ) (th : String) (pr : ℚ)
    (hact : m.active = some s) (hent : s.entry = some e)
    (hsid : ⌊t⌋ ≠ s.session_id) :
    storeGet s.session_id ((startSession m tFE t th pr).2).store =
      some (sessionToData
        (completeSession s tFE Action.SELL autoCloseThought pr)) ∧
    (completeSession s tFE Action.SELL autoCloseThought pr).exit =
      some ⟨tFE, Action.SELL, pr, autoCloseThought⟩ ∧
    (completeSession s tFE Action.SELL autoCloseThought pr).result =
      some ⟨pyTrunc ((tFE - e.time) / 60), pyRound 2 (pr - e.price),
        pyRound 1 ((pr - e.price) * 10)⟩ := by
  refine ⟨?_, completeSession_exit s tFE Action.SELL autoCloseThought pr, ?_⟩
  · rw [startSession_active_eq m s tFE t th pr hact]
    rw [endSession_active_eq m s tFE Action.SELL autoCloseThought pr hact]
    rw [startSession_none_eq _ tFE t th pr rfl]
    rw [storeGet_put_ne _ _ _ _ (Ne.symm hsid)]
    rw [completeSession_session_id]
    exact storeGet_put _ _ _
  · simp [completeSession, hent]

theorem c10_witness :
    storeGet 0
        ((startSession
          { symbol := "XAUUSDp",
            active := some (freshSession 0 "XAUUSDp" 0 "old entry" (2850.5 : ℚ)),
            store := [] } 60 60 "new entry" (2900.75 : ℚ)).2).store =
      some (sessionToData
        (completeSession (freshSession 0 "XAUUSDp" 0 "old entry" (2850.5 : ℚ))
          60 Action.SELL autoCloseThought (2900.75 : ℚ))) ∧
      (completeSession (freshSession 0 "XAUUSDp" 0 "old entry" (2850.5 : ℚ))
          60 Action.SELL autoCloseThought (2900.75 : ℚ)).exit =
        some ⟨60, Action.SELL, (2900.75 : ℚ), autoCloseThought⟩ := by
  have h := c10_forced_exit_uses_new_price
    { symbol := "XAUUSDp",
      active := some (freshSession 0 "XAUUSDp" 0 "old entry" (2850.5 : ℚ)),
      store := [] }
    (freshSession 0 "XAUUSDp" 0 "old entry" (2850.5 : ℚ))
    ⟨0, Action.BUY, (2850.5 : ℚ), "old entry"⟩
    60 60 "new entry" (2900.75 : ℚ) rfl rfl (by norm_num [freshSession])
  exact ⟨h.1, h.2.1⟩

theorem c10_counterexample :
    (((storeGet 0
          ((startSession
            (startSession (initManager "XAUUSDp") 0 0 "first entry" 0).2
            60 60 "second entry" (1/1000 : ℚ)).2).store).bind
        SessionData.exit).map PointData.price) = some (1/1000 : ℚ) ∧
      (((storeGet 0
          ((startSession
            (startSession (initManager "XAUUSDp") 0 0 "first entry" 0).2
            60 60 "second entry" (1/1000 : ℚ)).2).store).bind
        SessionData.result).map ResultData.profit) = some 0 ∧
      (1/1000 : ℚ) - 0 ≠ 0 := by
  rw [startSession_none_eq (initManager "XAUUSDp") 0 0 "first entry" 0 rfl]
  rw [startSession_active_eq _ _ 60 60 "second entry" _ rfl]
  rw [endSession_active_eq _ _ 60 Action.SELL autoCloseThought _ rfl]
  rw [startSession_none_eq _ 60 60 "second entry" _ rfl]
  rw [storeGet_put_ne _ _ _ _ (by norm_num : (0:ℤ) ≠ ⌊(60:ℚ)⌋)]
  rw [completeSession_session_id]
  simp only [initManager, freshSession, Int.floor_zero]
  rw [storeGet_put]
  refine ⟨?_, ?_, by norm_num⟩
  · norm_num [sessionToData, completeSession, freshSession]
  · norm_num [sessionToData, completeSession, freshSession, pyRound,
      roundHalfEven, pyTrunc]

end MT5
